import Mathlib

/-!
# Measurement engine of `akamaispeedcli`

A shallow embedding of the reductions in `network.go` (`testDownload`,
`testUpload`, `testLatency`, `urlSep`) and `servers.go`
(`findClosestServer`), followed by the properties proved about them.

Modelling conventions

* `int`, `int64` and `time.Duration` are integers; where the source can
  overflow the result is wrapped to 64 bits with `wrapInt64`.
* `float64` is `Float64 := Option ℚ`: a finite value is an exact rational
  (rounding is not modelled) and `none` is a non-finite value (NaN or an
  infinity).  In this program a non-finite value can only come from a division
  whose divisor is zero, and every divisor is finite.
* Goroutines, channels and the clock are the environment: a run is described
  by the values the main goroutine receives (in arrival order) and by the
  clock readings it takes.
* Memory is not modelled, except that `make(chan int64, size)` returns only
  for a size the runtime provides a buffer for (`Runtime`); a `go` statement
  always starts its goroutine.
-/

set_option autoImplicit false

namespace AkamaiSpeedCli

/-! ## Numbers -/

/-- Two's-complement wrap of an integer to the `int64` range. -/
def wrapInt64 (x : Int) : Int := (x + 2 ^ 63) % 2 ^ 64 - 2 ^ 63

/-- A `float64`: `some q` is the finite value `q`, `none` is NaN or an infinity. -/
abbrev Float64 := Option ℚ

/-- Operator `/` of `float64` with a finite divisor: a zero divisor gives NaN or an
infinity, a non-finite dividend stays non-finite. -/
def fdiv (x : Float64) (y : ℚ) : Float64 :=
  match x with
  | some a => if y = 0 then none else some (a / y)
  | none => none

/-- Operator `*` of `float64` with a finite nonzero constant. -/
def fmul (x : Float64) (c : ℚ) : Float64 :=
  match x with
  | some a => some (a * c)
  | none => none

/-! ## Configuration (`main.go`) -/

/-- The fields of `TestConfig` that the measurement engine reads. -/
structure TestConfig where
  TimeULMax : Int
  TimeDLMax : Int
  CountPing : Int
  XhrDLMultistream : Int
  XhrULMultistream : Int
  XhrMultistreamDelay : Int
  GarbagePHPChunkSize : Int
  OverheadCompensationFactor : ℚ
  UseMebibits : Bool

/-- The configuration installed by `init()`. -/
def defaultConfig : TestConfig where
  TimeULMax := 15
  TimeDLMax := 15
  CountPing := 10
  XhrDLMultistream := 6
  XhrULMultistream := 3
  XhrMultistreamDelay := 300
  GarbagePHPChunkSize := 100
  OverheadCompensationFactor := 106 / 100
  UseMebibits := false

/-! ## Speed derivation (`testDownload` lines 221-229, `testUpload` lines 283-291) -/

/-- Speed derivation of `testDownload`:
`speed := float64(totalBytes) * 8 / duration / 1024 / 1024`, then
`speed = speed / config.OverheadCompensationFactor`, then, when
`config.UseMebibits`, `speed = speed * 1000 * 1000 / 1024 / 1024`. -/
def downloadSpeed (config : TestConfig) (totalBytes : Int) (duration : ℚ) : Float64 :=
  let speed := fdiv (fdiv (fdiv (some ((totalBytes : ℚ) * 8)) duration) 1024) 1024
  let speed := fdiv speed config.OverheadCompensationFactor
  if config.UseMebibits then
    fdiv (fdiv (fmul (fmul speed 1000) 1000) 1024) 1024
  else
    speed

/-- Speed derivation of `testUpload` (the same statements as in `testDownload`). -/
def uploadSpeed (config : TestConfig) (totalBytes : Int) (duration : ℚ) : Float64 :=
  let speed := fdiv (fdiv (fdiv (some ((totalBytes : ℚ) * 8)) duration) 1024) 1024
  let speed := fdiv speed config.OverheadCompensationFactor
  if config.UseMebibits then
    fdiv (fdiv (fmul (fmul speed 1000) 1000) 1024) 1024
  else
    speed

/-! ## Latency reduction (`testLatency`) -/

/-- What `testLatency` returns, together with the divisors of the float divisions it
evaluated, in evaluation order. -/
structure LatencyResult where
  avgPing : Float64
  jitter : Float64
  divisors : List ℚ
deriving DecidableEq

/-- The loop `for _, p := range pings { sum += p }`. -/
def pingSum (pings : List ℚ) : ℚ :=
  pings.foldl (fun sum p => sum + p) 0

/-- The loop `for i := 1; i < len(pings); i++` accumulating `jitterSum`. -/
def jitterSum (pings : List ℚ) : ℚ :=
  (List.range' 1 (pings.length - 1)).foldl
    (fun jitterSum i =>
      let diff := pings.getD i 0 - pings.getD (i - 1) 0
      let diff := if diff < 0 then -diff else diff
      jitterSum + diff)
    0

/-- Lines 319-343 of `testLatency`: the reduction of the collected `pings`
(milliseconds, arrival order) to `(avgPing, jitter)`. -/
def latencyStats (pings : List ℚ) : LatencyResult :=
  if pings.length = 0 then
    { avgPing := some 0, jitter := some 0, divisors := [] }
  else
    let count : ℚ := ((pings.length : Int) : ℚ)
    let countLess : ℚ := (((pings.length : Int) - 1 : Int) : ℚ)
    { avgPing := fdiv (some (pingSum pings)) count
      jitter := fdiv (some (jitterSum pings)) countLess
      divisors := [count, countLess] }

/-- The body of `testLatency` after the worker is started: `results` are the durations
(nanoseconds) delivered by the channel before it is closed; each one is converted with
`float64(duration) / float64(time.Millisecond)` and the list is reduced. -/
def testLatency (results : List Int) : LatencyResult :=
  let pings := results.map (fun duration => (duration : ℚ) / 1000000)
  let r := latencyStats pings
  { r with divisors := results.map (fun _ => (1000000 : ℚ)) ++ r.divisors }

/-! ## Server selection (`findClosestServer`) -/

/-- The local type `serverLatency` of `findClosestServer`; `latency` is a
`time.Duration` (nanoseconds), `0` for a failed probe. -/
structure serverLatency where
  index : Int
  latency : Int
deriving DecidableEq

/-- The function `findClosestServer` after the probes are started: `latencies` are the
values received from the channel, one per server, in arrival order. -/
def findClosestServer (latencies : List serverLatency) : Int :=
  let results := latencies.filter (fun result => decide (result.latency > 0))
  match results with
  | [] => 0
  | first :: _ =>
    (results.foldl
      (fun closest result => if result.latency < closest.latency then result else closest)
      first).index

/-! ## Pool start and timing (`testDownload`, `testUpload`) -/

/-- Saturation to the `int64` range, as `time.Time.Sub` does for a `time.Duration`. -/
def satInt64 (x : Int) : Int := max (-(2 ^ 63)) (min x (2 ^ 63 - 1))

/-- What the main goroutine does in the spawn loop. -/
inductive PoolStep where
  /-- The statements `wg.Add(1); go worker(...)`. -/
  | spawn : PoolStep
  /-- The call `time.Sleep(d)`, with `d` in nanoseconds. -/
  | sleep (d : Int) : PoolStep
deriving DecidableEq

/-- The body of the spawn loop: start one worker, and when `concurrentStreams > 1`
sleep `time.Duration(config.XhrMultistreamDelay) * time.Millisecond`. -/
def spawnBody (concurrentStreams delay : Int) : List PoolStep :=
  if concurrentStreams > 1 then
    [PoolStep.spawn, PoolStep.sleep (wrapInt64 (delay * 1000000))]
  else
    [PoolStep.spawn]

/-- The loop `for i := 0; i < concurrentStreams; i++`, unrolled for the given number
of iterations. -/
def spawnLoop (concurrentStreams delay : Int) : Nat → List PoolStep
  | 0 => []
  | n + 1 => spawnBody concurrentStreams delay ++ spawnLoop concurrentStreams delay n

/-- The pool a test starts: the capacity of the `results` channel and the steps of the
spawn loop. -/
structure Pool where
  capacity : Int
  steps : List PoolStep
deriving DecidableEq

/-- The Go runtime as far as `make(chan int64, size)` depends on it.  For a size that
is not negative and whose `8 * size` bytes fit a machine word, `makechan` panics ("size
out of range") when `8 * size` exceeds `maxAlloc - hchanSize`, and the program dies when
the buffer cannot be allocated.  These limits are constants and state of the runtime, not
of this repository, so whether the buffer is provided is a parameter. -/
structure Runtime where
  /-- Whether a channel buffer of `size` elements of 8 bytes is provided. -/
  provides : Int → Bool

/-- A runtime that performs the size check of `makechan` with the allocator constants
`maxAlloc` and `hchanSize` (`2 ^ 48` and `96` on linux/amd64) and never runs out of
memory. -/
def sizeCheck (maxAlloc hchanSize : Int) : Runtime where
  provides := fun size => decide (size * 8 < 2 ^ 64 ∧ size * 8 ≤ maxAlloc - hchanSize)

/-- The call `make(chan int64, size)`: the capacity of the channel made, `none` when the
call does not return: the run-time panic on a negative size, the panic of `makechan`
when the `8 * size` bytes of the buffer overflow the 64-bit word, or a buffer that the
runtime does not provide. -/
def makeChan (rt : Runtime) (size : Int) : Option Int :=
  if size < 0 then none
  else if 2 ^ 64 ≤ size * 8 then none
  else if rt.provides size then some size
  else none

/-- Lines 183-204 of `testDownload`.  `none` means that `make(chan int64, streams*2)`
did not return; `streams*2` is computed in `int`, 64 bits wide. -/
def downloadPool (rt : Runtime) (config : TestConfig) : Option Pool :=
  let streams := if config.XhrDLMultistream ≤ 0 then 1 else config.XhrDLMultistream
  match makeChan rt (wrapInt64 (streams * 2)) with
  | none => none
  | some capacity =>
    let concurrentStreams := if config.XhrDLMultistream ≤ 0 then 1 else config.XhrDLMultistream
    some { capacity := capacity
           steps := spawnLoop concurrentStreams config.XhrMultistreamDelay concurrentStreams.toNat }

/-- Lines 241-266 of `testUpload`, as `downloadPool` with `XhrULMultistream`. -/
def uploadPool (rt : Runtime) (config : TestConfig) : Option Pool :=
  let streams := if config.XhrULMultistream ≤ 0 then 1 else config.XhrULMultistream
  match makeChan rt (wrapInt64 (streams * 2)) with
  | none => none
  | some capacity =>
    let concurrentStreams := if config.XhrULMultistream ≤ 0 then 1 else config.XhrULMultistream
    some { capacity := capacity
           steps := spawnLoop concurrentStreams config.XhrMultistreamDelay concurrentStreams.toNat }

/-- Number of workers started by a sequence of steps. -/
def workersSpawned : List PoolStep → Nat
  | [] => 0
  | PoolStep.spawn :: rest => workersSpawned rest + 1
  | PoolStep.sleep _ :: rest => workersSpawned rest

/-- Number of `time.Sleep` calls in a sequence of steps. -/
def sleepCalls : List PoolStep → Nat
  | [] => 0
  | PoolStep.spawn :: rest => sleepCalls rest
  | PoolStep.sleep _ :: rest => sleepCalls rest + 1

/-- Time requested from `time.Sleep` by a sequence of steps, in nanoseconds
(`time.Sleep` returns at once for a duration that is zero or negative). -/
def startupDelay : List PoolStep → Int
  | [] => 0
  | PoolStep.spawn :: rest => startupDelay rest
  | PoolStep.sleep d :: rest => max d 0 + startupDelay rest

/-- What the environment contributes to one run of `testDownload` or `testUpload`.
Clock readings are nanoseconds of the monotonic clock. -/
structure Session where
  /-- Clock when the spawn loop is entered (before the first `go`). -/
  poolStart : Int
  /-- Time the spawn loop takes beyond the sleeps it requests. -/
  spawnOverhead : Nat
  /-- The values received by `for bytes := range results`, in arrival order. -/
  results : List Int
  /-- Clock when the `range` loop ends, the channel being closed. -/
  closed : Int

/-- The reading `startTime := time.Now()`, taken after the spawn loop. -/
def startTimeOf (pool : Pool) (s : Session) : Int :=
  s.poolStart + startupDelay pool.steps + s.spawnOverhead

/-- The loop `for bytes := range results { atomic.AddInt64(&totalBytes, bytes) }`. -/
def accumulate (results : List Int) : Int :=
  results.foldl (fun totalBytes bytes => wrapInt64 (totalBytes + bytes)) 0

/-- The value `time.Since(startTime).Seconds()`. -/
def secondsSince (startTime now : Int) : ℚ :=
  ((satInt64 (now - startTime) : Int) : ℚ) / 1000000000

/-- The quantities of one speed test. -/
structure Measurement where
  totalBytes : Int
  duration : ℚ
  speed : Float64
deriving DecidableEq

/-- The function `testDownload`; `none` means that the pool was not created. -/
def testDownload (rt : Runtime) (config : TestConfig) (s : Session) : Option Measurement :=
  match downloadPool rt config with
  | none => none
  | some pool =>
    let totalBytes := accumulate s.results
    let startTime := startTimeOf pool s
    let duration := secondsSince startTime s.closed
    some { totalBytes := totalBytes, duration := duration
           speed := downloadSpeed config totalBytes duration }

/-- The function `testUpload`; `none` means that the pool was not created. -/
def testUpload (rt : Runtime) (config : TestConfig) (s : Session) : Option Measurement :=
  match uploadPool rt config with
  | none => none
  | some pool =>
    let totalBytes := accumulate s.results
    let startTime := startTimeOf pool s
    let duration := secondsSince startTime s.closed
    some { totalBytes := totalBytes, duration := duration
           speed := uploadSpeed config totalBytes duration }

/-! ## Query separator (`urlSep`) -/

/-- The character `'\\'` of the source. -/
def backslash : Char := Char.ofNat 92

/-- The loop `for i := len(url) - 1; i >= 0; i--` of `urlSep`, entered with `i + 1`
indices left to examine; leaving the loop (by `break` or by exhaustion) returns `"?"`.
Go indexes the bytes of the string; the three bytes compared are ASCII and no byte of a
multi-byte UTF-8 sequence is ASCII, so examining characters finds the same ones. -/
def urlSepFrom (url : List Char) : Nat → String
  | 0 => "?"
  | i + 1 =>
    if url.getD i ' ' = '?' then "&"
    else if url.getD i ' ' = '/' ∨ url.getD i ' ' = backslash then "?"
    else urlSepFrom url i

/-- The function `urlSep`. -/
def urlSep (url : String) : String :=
  urlSepFrom url.data url.data.length

/-! ## Properties of the speed derivation -/

/-- A division by a nonzero divisor is finite. -/
theorem fdiv_some_of_ne (a y : ℚ) (hy : y ≠ 0) : fdiv (some a) y = some (a / y) := by
  simp [fdiv, hy]

/-- A division by zero is non-finite. -/
theorem fdiv_zero_divisor (x : Float64) : fdiv x 0 = none := by
  cases x <;> simp [fdiv]

/-- A non-finite dividend stays non-finite. -/
theorem fdiv_none (y : ℚ) : fdiv none y = none := rfl

/-- A non-finite factor stays non-finite. -/
theorem fmul_none (c : ℚ) : fmul none c = none := rfl

/-- The value of the derivation for a nonzero duration and a nonzero factor. -/
theorem downloadSpeed_eq (config : TestConfig) (totalBytes : Int) (duration : ℚ)
    (hd : duration ≠ 0) (hf : config.OverheadCompensationFactor ≠ 0) :
    downloadSpeed config totalBytes duration
      = some ((totalBytes : ℚ) * 8 / duration / 1048576 / config.OverheadCompensationFactor
          * (if config.UseMebibits = true then 1000000 / 1048576 else 1)) := by
  unfold downloadSpeed
  cases hu : config.UseMebibits
  · simp only [fdiv_some_of_ne, hd, hf, ne_eq, OfNat.ofNat_ne_zero, not_false_eq_true,
      Bool.false_eq_true, if_false, mul_one]
    congr 1
    ring
  · simp only [fdiv_some_of_ne, fmul, hd, hf, ne_eq, OfNat.ofNat_ne_zero, not_false_eq_true,
      if_true]
    congr 1
    ring

/-- The two derivations are the same statements. -/
theorem uploadSpeed_eq_downloadSpeed (config : TestConfig) (totalBytes : Int) (duration : ℚ) :
    uploadSpeed config totalBytes duration = downloadSpeed config totalBytes duration := rfl

/-- A zero duration makes the derivation non-finite, whatever the byte count. -/
theorem downloadSpeed_zero_duration (config : TestConfig) (totalBytes : Int) :
    downloadSpeed config totalBytes 0 = none := by
  unfold downloadSpeed
  cases config.UseMebibits <;> simp [fdiv_zero_divisor, fdiv_none, fmul_none]

/-- C1: for every byte count `totalBytes ≥ 0`, elapsed time `> 0` and overhead factor
`> 0`, with `UseMebibits = false` the speed derived by `testDownload` and by `testUpload`
is the finite value `totalBytes * 8 / elapsedSeconds / 1048576 / factor`; for
`3 * 1048576` bytes in one second with factor `1` it is exactly `24`. -/
theorem speed_formula (config : TestConfig) (totalBytes : Int) (elapsedSeconds : ℚ)
    (hb : 0 ≤ totalBytes) (he : 0 < elapsedSeconds)
    (hf : 0 < config.OverheadCompensationFactor) (hu : config.UseMebibits = false) :
    (downloadSpeed config totalBytes elapsedSeconds
        = some ((totalBytes : ℚ) * 8 / elapsedSeconds / 1048576
            / config.OverheadCompensationFactor)
      ∧ uploadSpeed config totalBytes elapsedSeconds
        = some ((totalBytes : ℚ) * 8 / elapsedSeconds / 1048576
            / config.OverheadCompensationFactor))
    ∧ downloadSpeed { defaultConfig with OverheadCompensationFactor := 1 } (3 * 1048576) 1
        = some 24
    ∧ uploadSpeed { defaultConfig with OverheadCompensationFactor := 1 } (3 * 1048576) 1
        = some 24 := by
  have _ := hb
  have key := downloadSpeed_eq config totalBytes elapsedSeconds he.ne' hf.ne'
  rw [hu] at key
  simp only [Bool.false_eq_true, if_false, mul_one] at key
  refine ⟨⟨key, ?_⟩, ?_, ?_⟩
  · rw [uploadSpeed_eq_downloadSpeed]; exact key
  · rw [downloadSpeed_eq _ _ _ one_ne_zero one_ne_zero]
    norm_num [defaultConfig]
  · rw [uploadSpeed_eq_downloadSpeed, downloadSpeed_eq _ _ _ one_ne_zero one_ne_zero]
    norm_num [defaultConfig]

/-- Instance of `speed_formula`: the default configuration (factor `1.06`), `2097152`
bytes in `2` seconds. -/
theorem speed_formula_witness :
    downloadSpeed defaultConfig 2097152 2
        = some ((2097152 : ℚ) * 8 / 2 / 1048576 / defaultConfig.OverheadCompensationFactor)
    ∧ uploadSpeed defaultConfig 2097152 2
        = some ((2097152 : ℚ) * 8 / 2 / 1048576 / defaultConfig.OverheadCompensationFactor) :=
  (speed_formula defaultConfig 2097152 2 (by decide) (by norm_num)
    (by norm_num [defaultConfig]) rfl).1

/-- C4, as stated, fails: nothing guards the zero-sample case.  With zero bytes and an
elapsed time of zero the derivation is `0 / 0`, a NaN and not the number `0` (default
configuration); the same happens for a configured overhead factor of `0`. -/
theorem zero_bytes_zero_elapsed_nan :
    downloadSpeed defaultConfig 0 0 = none
    ∧ uploadSpeed defaultConfig 0 0 = none
    ∧ downloadSpeed { defaultConfig with OverheadCompensationFactor := 0 } 0 15 = none := by
  refine ⟨downloadSpeed_zero_duration _ _, ?_, ?_⟩
  · rw [uploadSpeed_eq_downloadSpeed]; exact downloadSpeed_zero_duration _ _
  · simp [downloadSpeed, fdiv, defaultConfig]

/-- C4, amended: for every elapsed time `> 0` and every configuration whose overhead
factor is not `0`, a download or upload derivation with `totalBytes = 0` reports exactly
`0`, in either unit mode. -/
theorem zero_bytes_speed (config : TestConfig) (elapsedSeconds : ℚ)
    (he : 0 < elapsedSeconds) (hf : config.OverheadCompensationFactor ≠ 0) :
    downloadSpeed config 0 elapsedSeconds = some 0
    ∧ uploadSpeed config 0 elapsedSeconds = some 0 := by
  have key : downloadSpeed config 0 elapsedSeconds = some 0 := by
    rw [downloadSpeed_eq config 0 elapsedSeconds he.ne' hf]
    simp
  exact ⟨key, by rw [uploadSpeed_eq_downloadSpeed]; exact key⟩

/-- Instance of `zero_bytes_speed`: the default configuration after a 15 second test
that collected nothing. -/
theorem zero_bytes_speed_witness :
    downloadSpeed defaultConfig 0 15 = some 0 ∧ uploadSpeed defaultConfig 0 15 = some 0 :=
  zero_bytes_speed defaultConfig 15 (by norm_num) (by norm_num [defaultConfig])

/-- C5, as stated, fails: with `UseMebibits = false`, factor `1`, `3 * 1048576` bytes in
one second the reported speed is the binary-derived `24` itself, not `24` multiplied by
`1000000 / 1048576` (download and upload alike). -/
theorem mebibits_false_not_scaled :
    downloadSpeed { defaultConfig with OverheadCompensationFactor := 1, UseMebibits := false }
        (3 * 1048576) 1 = some 24
    ∧ uploadSpeed { defaultConfig with OverheadCompensationFactor := 1, UseMebibits := false }
        (3 * 1048576) 1 = some 24
    ∧ (some 24 : Float64)
        ≠ some (((3 * 1048576 : Int) : ℚ) * 8 / 1 / 1048576 / 1 * (1000000 / 1048576)) := by
  refine ⟨?_, ?_, ?_⟩
  · rw [downloadSpeed_eq _ _ _ one_ne_zero one_ne_zero]
    norm_num
  · rw [uploadSpeed_eq_downloadSpeed, downloadSpeed_eq _ _ _ one_ne_zero one_ne_zero]
    norm_num
  · norm_num

/-- C5, amended: for every `totalBytes`, elapsed time `> 0` and overhead factor `> 0`, the
speed reported with `UseMebibits = true` is the binary-derived speed multiplied by exactly
`1000000 / 1048576`, and with `UseMebibits = false` it is the binary-derived speed itself
(download and upload alike). -/
theorem mebibits_scaling (config : TestConfig) (totalBytes : Int) (elapsedSeconds : ℚ)
    (he : 0 < elapsedSeconds) (hf : 0 < config.OverheadCompensationFactor) :
    (config.UseMebibits = true →
      downloadSpeed config totalBytes elapsedSeconds
        = some ((totalBytes : ℚ) * 8 / elapsedSeconds / 1048576
            / config.OverheadCompensationFactor * (1000000 / 1048576))
      ∧ uploadSpeed config totalBytes elapsedSeconds
        = some ((totalBytes : ℚ) * 8 / elapsedSeconds / 1048576
            / config.OverheadCompensationFactor * (1000000 / 1048576)))
    ∧ (config.UseMebibits = false →
      downloadSpeed config totalBytes elapsedSeconds
        = some ((totalBytes : ℚ) * 8 / elapsedSeconds / 1048576
            / config.OverheadCompensationFactor)
      ∧ uploadSpeed config totalBytes elapsedSeconds
        = some ((totalBytes : ℚ) * 8 / elapsedSeconds / 1048576
            / config.OverheadCompensationFactor)) := by
  have key := downloadSpeed_eq config totalBytes elapsedSeconds he.ne' hf.ne'
  constructor
  · intro hu
    rw [hu] at key
    simp only [if_true] at key
    exact ⟨key, by rw [uploadSpeed_eq_downloadSpeed]; exact key⟩
  · intro hu
    rw [hu] at key
    simp only [Bool.false_eq_true, if_false, mul_one] at key
    exact ⟨key, by rw [uploadSpeed_eq_downloadSpeed]; exact key⟩

/-- Instance of `mebibits_scaling`: `UseMebibits = true`, factor `1`, `3 * 1048576` bytes
in one second. -/
theorem mebibits_scaling_witness :
    downloadSpeed { defaultConfig with OverheadCompensationFactor := 1, UseMebibits := true }
        (3 * 1048576) 1
      = some (((3 * 1048576 : Int) : ℚ) * 8 / 1 / 1048576 / 1 * (1000000 / 1048576)) :=
  ((mebibits_scaling { defaultConfig with OverheadCompensationFactor := 1, UseMebibits := true }
    (3 * 1048576) 1 one_pos one_pos).1 rfl).1

/-! ## Properties of the latency reduction -/

/-- The accumulation loop of `sum` adds the list to its start value. -/
theorem foldl_add_eq_sum (pings : List ℚ) (a : ℚ) :
    pings.foldl (fun sum p => sum + p) a = a + pings.sum := by
  induction pings generalizing a with
  | nil => simp
  | cons p rest ih => simp [List.foldl_cons, ih, add_assoc]

/-- The loop computing `sum` returns the sum of the samples. -/
theorem pingSum_eq_sum (pings : List ℚ) : pingSum pings = pings.sum := by
  simp [pingSum, foldl_add_eq_sum]

/-- An accumulation over the indices `s, s+1, ..., s+k-1` is a finite sum. -/
theorem foldl_range_eq_sum (f : Nat → ℚ) (k s : Nat) (a : ℚ) :
    (List.range' s k).foldl (fun acc i => acc + f i) a
      = a + ∑ i in Finset.range k, f (s + i) := by
  induction k generalizing s a with
  | zero => simp [List.range']
  | succ k ih =>
    rw [List.range'_succ, List.foldl_cons, ih, Finset.sum_range_succ']
    have : ∀ i, f (s + 1 + i) = f (s + (i + 1)) := fun i => by
      congr 1; omega
    simp only [this, add_zero]
    ring

/-- The jitter loop returns the sum of the absolute consecutive differences. -/
theorem jitterSum_eq_sum (pings : List ℚ) :
    jitterSum pings
      = ∑ i in Finset.Ico 1 pings.length, |pings.getD i 0 - pings.getD (i - 1) 0| := by
  have habs : ∀ d : ℚ, (if d < 0 then -d else d) = |d| := by
    intro d
    split_ifs with h
    · exact (abs_of_neg h).symm
    · exact (abs_of_nonneg (not_lt.mp h)).symm
  unfold jitterSum
  simp only [habs]
  rw [foldl_range_eq_sum (fun i => |pings.getD i 0 - pings.getD (i - 1) 0|),
    Finset.sum_Ico_eq_sum_range, zero_add]

/-- The reduction for at least two samples: both divisions are by nonzero counts. -/
theorem latencyStats_of_two_le (pings : List ℚ) (h : 2 ≤ pings.length) :
    latencyStats pings
      = { avgPing := some (pings.sum / pings.length)
          jitter := some ((∑ i in Finset.Ico 1 pings.length,
              |pings.getD i 0 - pings.getD (i - 1) 0|) / ((pings.length : ℚ) - 1))
          divisors := [(pings.length : ℚ), (pings.length : ℚ) - 1] } := by
  have hn : pings.length ≠ 0 := by omega
  have h1 : ((pings.length : Int) : ℚ) ≠ 0 := by
    exact_mod_cast hn
  have h2 : (((pings.length : Int) - 1 : Int) : ℚ) ≠ 0 := by
    have : (pings.length : Int) - 1 ≠ 0 := by omega
    exact_mod_cast this
  unfold latencyStats
  rw [if_neg hn]
  simp only [fdiv_some_of_ne _ _ h1, fdiv_some_of_ne _ _ h2, pingSum_eq_sum, jitterSum_eq_sum]
  push_cast
  rfl

/-- C2: for every sequence `pings` of at least 2 latency samples (milliseconds, arrival
order) the reduction of `testLatency` returns the finite values
`average = (sum of pings) / n` and
`jitter = (sum over i = 1..n-1 of |pings[i] - pings[i-1]|) / (n - 1)`; for the samples
`[10, 20, 15, 25]` ms it returns average `17.5` and jitter `25/3`. -/
theorem latency_average_jitter (pings : List ℚ) (h : 2 ≤ pings.length) :
    (latencyStats pings).avgPing = some (pings.sum / pings.length)
    ∧ (latencyStats pings).jitter
        = some ((∑ i in Finset.Ico 1 pings.length,
            |pings.getD i 0 - pings.getD (i - 1) 0|) / ((pings.length : ℚ) - 1))
    ∧ (testLatency [10000000, 20000000, 15000000, 25000000]).avgPing = some (35 / 2)
    ∧ (testLatency [10000000, 20000000, 15000000, 25000000]).jitter = some (25 / 3) := by
  rw [latencyStats_of_two_le pings h]
  refine ⟨rfl, rfl, ?_, ?_⟩
  · simp only [testLatency, List.map]
    rw [latencyStats_of_two_le _ (by decide)]
    norm_num
  · simp only [testLatency, List.map]
    rw [latencyStats_of_two_le _ (by decide)]
    simp [Finset.sum_Ico_eq_sum_range, Finset.sum_range_succ]
    norm_num

/-- Instance of `latency_average_jitter`: the samples `[10, 20, 15, 25]`. -/
theorem latency_average_jitter_witness :
    (latencyStats [10, 20, 15, 25]).avgPing
        = some (([10, 20, 15, 25] : List ℚ).sum / ([10, 20, 15, 25] : List ℚ).length)
    ∧ (latencyStats [10, 20, 15, 25]).jitter
        = some ((∑ i in Finset.Ico 1 ([10, 20, 15, 25] : List ℚ).length,
            |([10, 20, 15, 25] : List ℚ).getD i 0 - ([10, 20, 15, 25] : List ℚ).getD (i - 1) 0|)
            / ((([10, 20, 15, 25] : List ℚ).length : ℚ) - 1)) :=
  have h := latency_average_jitter [10, 20, 15, 25] (by decide)
  ⟨h.1, h.2.1⟩

/-- C3 fails on the code: for a single sample `p` the reduction returns average `p`, but
the jitter is `0 / 0`: the divisor `len(pings) - 1` is `0` when the division is evaluated
and the result is NaN, not `0`. -/
theorem single_sample_jitter_nan (p : ℚ) :
    (latencyStats [p]).avgPing = some p
    ∧ (latencyStats [p]).jitter = none
    ∧ (latencyStats [p]).divisors = [1, 0]
    ∧ (testLatency [10000000]).jitter = none := by
  refine ⟨?_, ?_, ?_, ?_⟩
  · simp [latencyStats, fdiv, pingSum]
  · simp [latencyStats, fdiv]
  · simp [latencyStats]
  · simp [testLatency, latencyStats, fdiv]

/-- C10: when the channel closes without delivering a duration, `testLatency` returns
exactly `(0, 0)` and has evaluated no division. -/
theorem zero_samples_latency :
    testLatency [] = { avgPing := some 0, jitter := some 0, divisors := [] } := by
  rfl

/-! ## Properties of the server selection -/

/-- The selection loop started from `c`: either `c` is kept and nothing in the list is
smaller, or the result is the first entry of the list that is the smallest and smaller
than `c`. -/
theorem closest_fold_split (l : List serverLatency) (c : serverLatency) :
    ((l.foldl (fun closest result =>
          if result.latency < closest.latency then result else closest) c) = c
        ∧ ∀ x ∈ l, c.latency ≤ x.latency)
    ∨ ∃ pre post,
        l = pre ++ (l.foldl (fun closest result =>
          if result.latency < closest.latency then result else closest) c) :: post
        ∧ (l.foldl (fun closest result =>
          if result.latency < closest.latency then result else closest) c).latency < c.latency
        ∧ (∀ x ∈ pre, (l.foldl (fun closest result =>
          if result.latency < closest.latency then result else closest) c).latency < x.latency)
        ∧ (∀ x ∈ post, (l.foldl (fun closest result =>
          if result.latency < closest.latency then result else closest) c).latency ≤ x.latency) := by
  induction l generalizing c with
  | nil => left; simp
  | cons x l ih =>
    rw [List.foldl_cons]
    by_cases hx : x.latency < c.latency
    · rw [if_pos hx]
      right
      rcases ih x with ⟨hm, hall⟩ | ⟨pre, post, hl, hlt, hpre, hpost⟩
      · refine ⟨[], l, ?_, ?_, ?_, ?_⟩
        · rw [hm]; rfl
        · rw [hm]; exact hx
        · intro y hy; cases hy
        · rw [hm]; exact hall
      · refine ⟨x :: pre, post, ?_, lt_trans hlt hx, ?_, hpost⟩
        · rw [List.cons_append, ← hl]
        · intro y hy
          rcases List.mem_cons.mp hy with rfl | hy
          · exact hlt
          · exact hpre y hy
    · rw [if_neg hx]
      rcases ih c with ⟨hm, hall⟩ | ⟨pre, post, hl, hlt, hpre, hpost⟩
      · left
        refine ⟨hm, ?_⟩
        intro y hy
        rcases List.mem_cons.mp hy with rfl | hy
        · exact not_lt.mp hx
        · exact hall y hy
      · right
        refine ⟨x :: pre, post, ?_, hlt, ?_, hpost⟩
        · rw [List.cons_append, ← hl]
        · intro y hy
          rcases List.mem_cons.mp hy with rfl | hy
          · exact lt_of_lt_of_le hlt (not_lt.mp hx)
          · exact hpre y hy

/-- The selection loop over a non-empty `results` picks the first entry of least latency. -/
theorem closest_of_cons (first : serverLatency) (rest : List serverLatency) :
    ∃ pre post,
      first :: rest = pre ++ ((first :: rest).foldl (fun closest result =>
          if result.latency < closest.latency then result else closest) first) :: post
      ∧ (∀ x ∈ pre, ((first :: rest).foldl (fun closest result =>
          if result.latency < closest.latency then result else closest) first).latency
            < x.latency)
      ∧ (∀ x ∈ post, ((first :: rest).foldl (fun closest result =>
          if result.latency < closest.latency then result else closest) first).latency
            ≤ x.latency) := by
  rw [List.foldl_cons, if_neg (lt_irrefl _)]
  rcases closest_fold_split rest first with ⟨hm, hall⟩ | ⟨pre, post, hl, hlt, hpre, hpost⟩
  · refine ⟨[], rest, ?_, ?_, ?_⟩
    · rw [hm]; rfl
    · intro y hy; cases hy
    · rw [hm]; exact hall
  · refine ⟨first :: pre, post, ?_, ?_, hpost⟩
    · rw [List.cons_append, ← hl]
    · intro y hy
      rcases List.mem_cons.mp hy with rfl | hy
      · exact hlt
      · exact hpre y hy

/-- C6: `findClosestServer` returns `0` when no probe has latency `> 0`; otherwise the
arrival sequence splits as `before ++ r :: after` where `r` is the probe whose index is
returned, `r.latency > 0`, every successful probe that arrived before `r` has a strictly
larger latency and every successful probe that arrived after `r` has a latency at least
as large: the earliest-arrived successful probe of least latency, never a failed one. -/
theorem findClosestServer_spec (latencies : List serverLatency) :
    ((∀ r ∈ latencies, ¬ 0 < r.latency) → findClosestServer latencies = 0)
    ∧ ((∃ r ∈ latencies, 0 < r.latency) →
        ∃ before r after,
          latencies = before ++ r :: after
          ∧ findClosestServer latencies = r.index
          ∧ 0 < r.latency
          ∧ (∀ s ∈ before, 0 < s.latency → r.latency < s.latency)
          ∧ (∀ s ∈ after, 0 < s.latency → r.latency ≤ s.latency)) := by
  constructor
  · intro h
    have hnil : latencies.filter (fun result => decide (result.latency > 0)) = [] := by
      rw [List.filter_eq_nil_iff]
      intro a ha
      simpa using h a ha
    simp [findClosestServer, hnil]
  · rintro ⟨r0, hr0, hpos0⟩
    cases hres : latencies.filter (fun result => decide (result.latency > 0)) with
    | nil =>
      rw [List.filter_eq_nil_iff] at hres
      have := hres r0 hr0
      simp [hpos0] at this
    | cons first rest =>
      obtain ⟨pre, post, hsplit, hpre, hpost⟩ := closest_of_cons first rest
      have hval : findClosestServer latencies
          = ((first :: rest).foldl (fun closest result =>
              if result.latency < closest.latency then result else closest) first).index := by
        simp [findClosestServer, hres]
      generalize hm : (first :: rest).foldl (fun closest result =>
          if result.latency < closest.latency then result else closest) first = m
        at hsplit hpre hpost hval
      rw [hsplit] at hres
      obtain ⟨l₁, l₂, hl, h₁, h₂⟩ := List.filter_eq_append_iff.mp hres
      obtain ⟨l₃, l₄, hl₂, hno, hpm, h₄⟩ := List.filter_eq_cons_iff.mp h₂
      refine ⟨l₁ ++ l₃, m, l₄, ?_, hval, ?_, ?_, ?_⟩
      · rw [hl, hl₂, List.append_assoc]
      · simpa using hpm
      · intro s hs hspos
        rcases List.mem_append.mp hs with hs | hs
        · apply hpre
          rw [← h₁]
          exact List.mem_filter.mpr ⟨hs, by simpa using hspos⟩
        · exact absurd (by simpa using hspos) (hno s hs)
      · intro s hs hspos
        apply hpost
        rw [← h₄]
        exact List.mem_filter.mpr ⟨hs, by simpa using hspos⟩

/-- Instances of `findClosestServer_spec`: two failed probes give the default `0`; of
five probes with a tie between the servers 1 and 2 at the least latency, server 1
answered first and is returned. -/
theorem findClosestServer_spec_witness :
    findClosestServer [⟨5, 0⟩, ⟨7, -3⟩] = 0
    ∧ ∃ (before : List serverLatency) (r : serverLatency) (after : List serverLatency),
      ([⟨0, 0⟩, ⟨3, 50⟩, ⟨1, 20⟩, ⟨2, 20⟩, ⟨4, -1⟩] : List serverLatency) = before ++ r :: after
      ∧ findClosestServer [⟨0, 0⟩, ⟨3, 50⟩, ⟨1, 20⟩, ⟨2, 20⟩, ⟨4, -1⟩] = r.index
      ∧ 0 < r.latency
      ∧ (∀ s ∈ before, 0 < s.latency → r.latency < s.latency)
      ∧ (∀ s ∈ after, 0 < s.latency → r.latency ≤ s.latency) :=
  ⟨(findClosestServer_spec [⟨5, 0⟩, ⟨7, -3⟩]).1 (by decide),
   (findClosestServer_spec [⟨0, 0⟩, ⟨3, 50⟩, ⟨1, 20⟩, ⟨2, 20⟩, ⟨4, -1⟩]).2
    ⟨⟨3, 50⟩, by decide, by decide⟩⟩

/-! ## Properties of the pool start -/

/-- Wrapping leaves a value of the `int64` range unchanged. -/
theorem wrapInt64_of_range (x : Int) (h₀ : -(2 ^ 63) ≤ x) (h₁ : x < 2 ^ 63) :
    wrapInt64 x = x := by
  unfold wrapInt64
  omega

/-- Workers started by two step sequences in a row. -/
theorem workersSpawned_append (a b : List PoolStep) :
    workersSpawned (a ++ b) = workersSpawned a + workersSpawned b := by
  induction a with
  | nil => simp [workersSpawned]
  | cons x rest ih =>
    cases x
    · simp [workersSpawned, ih]; omega
    · simp [workersSpawned, ih]

/-- One iteration of the spawn loop starts one worker. -/
theorem workersSpawned_spawnBody (concurrentStreams delay : Int) :
    workersSpawned (spawnBody concurrentStreams delay) = 1 := by
  unfold spawnBody
  split_ifs <;> rfl

/-- The spawn loop starts one worker per iteration. -/
theorem workersSpawned_spawnLoop (concurrentStreams delay : Int) (n : Nat) :
    workersSpawned (spawnLoop concurrentStreams delay n) = n := by
  induction n with
  | zero => rfl
  | succ n ih =>
    rw [spawnLoop, workersSpawned_append, workersSpawned_spawnBody, ih]
    omega

/-- The call `make` returns the requested capacity when the size is not negative, its
bytes fit the machine word and the runtime provides the buffer. -/
theorem makeChan_of_provides (rt : Runtime) (size : Int) (h₀ : 0 ≤ size)
    (h₁ : size < 2 ^ 61) (hp : rt.provides size = true) : makeChan rt size = some size := by
  unfold makeChan
  rw [if_neg (by omega), if_neg (by omega), if_pos hp]

/-- The call `make` does not return for a negative size, whatever the runtime. -/
theorem makeChan_of_neg (rt : Runtime) (size : Int) (h : size < 0) :
    makeChan rt size = none := by
  unfold makeChan
  rw [if_pos h]

/-- The pool for a stream count that is zero or negative, or one. -/
theorem downloadPool_single (rt : Runtime) (config : TestConfig)
    (h : config.XhrDLMultistream ≤ 1) (hp : rt.provides 2 = true) :
    downloadPool rt config = some { capacity := 2, steps := [PoolStep.spawn] } := by
  unfold downloadPool
  have hs : (if config.XhrDLMultistream ≤ 0 then 1 else config.XhrDLMultistream) = 1 := by
    split_ifs <;> omega
  have hw : wrapInt64 (1 * 2) = 2 := by decide
  simp only [hs, hw, makeChan_of_provides rt 2 (by decide) (by decide) hp]
  simp [spawnLoop, spawnBody]

/-- The upload pool for a stream count that is zero or negative, or one. -/
theorem uploadPool_single (rt : Runtime) (config : TestConfig)
    (h : config.XhrULMultistream ≤ 1) (hp : rt.provides 2 = true) :
    uploadPool rt config = some { capacity := 2, steps := [PoolStep.spawn] } := by
  unfold uploadPool
  have hs : (if config.XhrULMultistream ≤ 0 then 1 else config.XhrULMultistream) = 1 := by
    split_ifs <;> omega
  have hw : wrapInt64 (1 * 2) = 2 := by decide
  simp only [hs, hw, makeChan_of_provides rt 2 (by decide) (by decide) hp]
  simp [spawnLoop, spawnBody]

/-- A stream count that is zero or negative starts the pool of the stream count one,
whatever the runtime answers. -/
theorem downloadPool_clamp (rt : Runtime) (config : TestConfig)
    (h : config.XhrDLMultistream ≤ 0) :
    downloadPool rt config = downloadPool rt { config with XhrDLMultistream := 1 } := by
  unfold downloadPool
  simp [h]

/-- The same for the upload pool. -/
theorem uploadPool_clamp (rt : Runtime) (config : TestConfig)
    (h : config.XhrULMultistream ≤ 0) :
    uploadPool rt config = uploadPool rt { config with XhrULMultistream := 1 } := by
  unfold uploadPool
  simp [h]

/-- The pool for a stream count `N` with `1 ≤ N < 2 ^ 60` whose channel is provided. -/
theorem downloadPool_of_range (rt : Runtime) (config : TestConfig)
    (h₁ : 1 ≤ config.XhrDLMultistream) (h₂ : config.XhrDLMultistream < 2 ^ 60)
    (hp : rt.provides (config.XhrDLMultistream * 2) = true) :
    downloadPool rt config = some
      { capacity := config.XhrDLMultistream * 2
        steps := spawnLoop config.XhrDLMultistream config.XhrMultistreamDelay
          config.XhrDLMultistream.toNat } := by
  unfold downloadPool
  have h0 : ¬ config.XhrDLMultistream ≤ 0 := by omega
  have hw : wrapInt64 (config.XhrDLMultistream * 2) = config.XhrDLMultistream * 2 :=
    wrapInt64_of_range _ (by omega) (by omega)
  simp only [if_neg h0, hw, makeChan_of_provides rt _ (by omega) (by omega) hp]

/-- The upload pool for a stream count `N` with `1 ≤ N < 2 ^ 60` whose channel is
provided. -/
theorem uploadPool_of_range (rt : Runtime) (config : TestConfig)
    (h₁ : 1 ≤ config.XhrULMultistream) (h₂ : config.XhrULMultistream < 2 ^ 60)
    (hp : rt.provides (config.XhrULMultistream * 2) = true) :
    uploadPool rt config = some
      { capacity := config.XhrULMultistream * 2
        steps := spawnLoop config.XhrULMultistream config.XhrMultistreamDelay
          config.XhrULMultistream.toNat } := by
  unfold uploadPool
  have h0 : ¬ config.XhrULMultistream ≤ 0 := by omega
  have hw : wrapInt64 (config.XhrULMultistream * 2) = config.XhrULMultistream * 2 :=
    wrapInt64_of_range _ (by omega) (by omega)
  simp only [if_neg h0, hw, makeChan_of_provides rt _ (by omega) (by omega) hp]

/-- Whenever the download pool is created, the spawn loop has started one worker per
configured stream. -/
theorem downloadPool_workers (rt : Runtime) (config : TestConfig) (pool : Pool)
    (h₁ : 1 ≤ config.XhrDLMultistream) (hp : downloadPool rt config = some pool) :
    (workersSpawned pool.steps : Int) = config.XhrDLMultistream := by
  unfold downloadPool at hp
  have h0 : ¬ config.XhrDLMultistream ≤ 0 := by omega
  simp only [if_neg h0] at hp
  cases hm : makeChan rt (wrapInt64 (config.XhrDLMultistream * 2)) with
  | none => rw [hm] at hp; exact Option.noConfusion hp
  | some capacity =>
    rw [hm] at hp
    have hpool := Option.some.inj hp
    rw [← hpool]
    simp only [workersSpawned_spawnLoop]
    exact Int.toNat_of_nonneg (by omega)

/-- The same for the upload pool. -/
theorem uploadPool_workers (rt : Runtime) (config : TestConfig) (pool : Pool)
    (h₁ : 1 ≤ config.XhrULMultistream) (hp : uploadPool rt config = some pool) :
    (workersSpawned pool.steps : Int) = config.XhrULMultistream := by
  unfold uploadPool at hp
  have h0 : ¬ config.XhrULMultistream ≤ 0 := by omega
  simp only [if_neg h0] at hp
  cases hm : makeChan rt (wrapInt64 (config.XhrULMultistream * 2)) with
  | none => rw [hm] at hp; exact Option.noConfusion hp
  | some capacity =>
    rw [hm] at hp
    have hpool := Option.some.inj hp
    rw [← hpool]
    simp only [workersSpawned_spawnLoop]
    exact Int.toNat_of_nonneg (by omega)

/-- C8, as stated, fails: the stream counts `2 ^ 62`, `2 ^ 61` and `2 ^ 45` are valid
`int` values `≥ 1`, but `make(chan int64, streams*2)` does not return for them and no
worker is spawned.  For `2 ^ 62` the size wraps to a negative number and for `2 ^ 61` its
bytes overflow the machine word, which panics under every runtime (here one that
provides every buffer); for `2 ^ 45` the size exceeds the allocator limit of
linux/amd64. -/
theorem huge_stream_count_panics :
    downloadPool { provides := fun _ => true }
        { defaultConfig with XhrDLMultistream := 2 ^ 62 } = none
    ∧ uploadPool { provides := fun _ => true }
        { defaultConfig with XhrULMultistream := 2 ^ 62 } = none
    ∧ downloadPool { provides := fun _ => true }
        { defaultConfig with XhrDLMultistream := 2 ^ 61 } = none
    ∧ downloadPool (sizeCheck (2 ^ 48) 96)
        { defaultConfig with XhrDLMultistream := 2 ^ 45 } = none
    ∧ testDownload { provides := fun _ => true }
        { defaultConfig with XhrDLMultistream := 2 ^ 61 }
        { poolStart := 0, spawnOverhead := 0, results := [], closed := 0 } = none := by
  decide

/-- C8, amended: for every configured stream count `N ≤ 0` (`XhrDLMultistream` in
`testDownload`, `XhrULMultistream` in `testUpload`) the pool is the pool for `N = 1`,
which, the runtime providing a channel of 2 elements, is: one worker, channel capacity 2,
no sleep; for every `N ≥ 1` for which `make(chan int64, N*2)` returns a channel (the
`16 * N` bytes of the buffer fit the machine word, that is `N < 2 ^ 60`, and the runtime
provides the buffer) exactly `N` workers are spawned and the channel has capacity `N*2`;
and for `N = 1` nothing is slept. -/
theorem stream_count_clamp (rt : Runtime) (config : TestConfig) :
    (config.XhrDLMultistream ≤ 0 →
      downloadPool rt config = downloadPool rt { config with XhrDLMultistream := 1 })
    ∧ (config.XhrULMultistream ≤ 0 →
      uploadPool rt config = uploadPool rt { config with XhrULMultistream := 1 })
    ∧ (config.XhrDLMultistream ≤ 1 → rt.provides 2 = true →
      downloadPool rt config = some { capacity := 2, steps := [PoolStep.spawn] })
    ∧ (config.XhrULMultistream ≤ 1 → rt.provides 2 = true →
      uploadPool rt config = some { capacity := 2, steps := [PoolStep.spawn] })
    ∧ (1 ≤ config.XhrDLMultistream → config.XhrDLMultistream < 2 ^ 60 →
      rt.provides (config.XhrDLMultistream * 2) = true →
      ∃ pool, downloadPool rt config = some pool
        ∧ (workersSpawned pool.steps : Int) = config.XhrDLMultistream
        ∧ pool.capacity = config.XhrDLMultistream * 2)
    ∧ (1 ≤ config.XhrULMultistream → config.XhrULMultistream < 2 ^ 60 →
      rt.provides (config.XhrULMultistream * 2) = true →
      ∃ pool, uploadPool rt config = some pool
        ∧ (workersSpawned pool.steps : Int) = config.XhrULMultistream
        ∧ pool.capacity = config.XhrULMultistream * 2)
    ∧ (1 ≤ config.XhrDLMultistream → ∀ pool, downloadPool rt config = some pool →
      (workersSpawned pool.steps : Int) = config.XhrDLMultistream)
    ∧ (1 ≤ config.XhrULMultistream → ∀ pool, uploadPool rt config = some pool →
      (workersSpawned pool.steps : Int) = config.XhrULMultistream)
    ∧ (config.XhrDLMultistream = 1 → rt.provides 2 = true →
      ∃ pool, downloadPool rt config = some pool
        ∧ sleepCalls pool.steps = 0 ∧ startupDelay pool.steps = 0)
    ∧ (config.XhrULMultistream = 1 → rt.provides 2 = true →
      ∃ pool, uploadPool rt config = some pool
        ∧ sleepCalls pool.steps = 0 ∧ startupDelay pool.steps = 0) := by
  refine ⟨downloadPool_clamp rt config, uploadPool_clamp rt config,
    downloadPool_single rt config, uploadPool_single rt config, ?_, ?_,
    fun h₁ pool hp => downloadPool_workers rt config pool h₁ hp,
    fun h₁ pool hp => uploadPool_workers rt config pool h₁ hp, ?_, ?_⟩
  · intro h₁ h₂ hp
    refine ⟨_, downloadPool_of_range rt config h₁ h₂ hp, ?_, rfl⟩
    simp only [workersSpawned_spawnLoop]
    exact Int.toNat_of_nonneg (by omega)
  · intro h₁ h₂ hp
    refine ⟨_, uploadPool_of_range rt config h₁ h₂ hp, ?_, rfl⟩
    simp only [workersSpawned_spawnLoop]
    exact Int.toNat_of_nonneg (by omega)
  · intro h hp
    exact ⟨_, downloadPool_single rt config (by omega) hp, rfl, rfl⟩
  · intro h hp
    exact ⟨_, uploadPool_single rt config (by omega) hp, rfl, rfl⟩

/-- Instances of `stream_count_clamp` under the size check of linux/amd64: a download
stream count of `-5` gives the pool of the stream count `1`, which is the single-stream
pool, and the default upload stream count `3` spawns three workers on a channel of
capacity 6. -/
theorem stream_count_clamp_witness :
    downloadPool (sizeCheck (2 ^ 48) 96) { defaultConfig with XhrDLMultistream := -5 }
        = downloadPool (sizeCheck (2 ^ 48) 96)
            { { defaultConfig with XhrDLMultistream := -5 } with XhrDLMultistream := 1 }
    ∧ downloadPool (sizeCheck (2 ^ 48) 96) { defaultConfig with XhrDLMultistream := -5 }
        = some { capacity := 2, steps := [PoolStep.spawn] }
    ∧ ∃ pool, uploadPool (sizeCheck (2 ^ 48) 96) defaultConfig = some pool
        ∧ (workersSpawned pool.steps : Int) = defaultConfig.XhrULMultistream
        ∧ pool.capacity = defaultConfig.XhrULMultistream * 2 :=
  ⟨(stream_count_clamp (sizeCheck (2 ^ 48) 96)
      { defaultConfig with XhrDLMultistream := -5 }).1 (by decide),
   (stream_count_clamp (sizeCheck (2 ^ 48) 96)
      { defaultConfig with XhrDLMultistream := -5 }).2.2.1 (by decide) (by decide),
   (stream_count_clamp (sizeCheck (2 ^ 48) 96) defaultConfig).2.2.2.2.2.1
      (by decide) (by decide) (by decide)⟩

/-- C7 fails on the code: `startTime` is read after the spawn loop, so the elapsed time
used for the speed leaves the startup stagger out.  With the default configuration (6
download and 3 upload streams, 300 ms apart) and a channel closed 15 s after the pool
start, `testDownload` divides by 13.2 s and `testUpload` by 14.1 s, although the bytes
received during the stagger are part of `totalBytes`. -/
theorem elapsed_excludes_stagger :
    secondsSince 0 15000000000 = 15
    ∧ (testDownload (sizeCheck (2 ^ 48) 96) defaultConfig
        { poolStart := 0, spawnOverhead := 0, results := [1048576], closed := 15000000000 }).map
          (fun m => m.duration) = some (132 / 10)
    ∧ (testUpload (sizeCheck (2 ^ 48) 96) defaultConfig
        { poolStart := 0, spawnOverhead := 0, results := [1048576], closed := 15000000000 }).map
          (fun m => m.duration) = some (141 / 10) := by
  have h1 : satInt64 15000000000 = 15000000000 := by decide
  have h2 : satInt64 13200000000 = 13200000000 := by decide
  have h3 : satInt64 14100000000 = 14100000000 := by decide
  have hd : downloadPool (sizeCheck (2 ^ 48) 96) defaultConfig = some
      { capacity := 12
        steps := spawnLoop 6 300 6 } := by decide
  have hu : uploadPool (sizeCheck (2 ^ 48) 96) defaultConfig = some
      { capacity := 6
        steps := spawnLoop 3 300 3 } := by decide
  have hsd : startupDelay (spawnLoop 6 300 6) = 1800000000 := by decide
  have hsu : startupDelay (spawnLoop 3 300 3) = 900000000 := by decide
  refine ⟨?_, ?_, ?_⟩
  · simp only [secondsSince, sub_zero, h1]
    norm_num
  · simp only [testDownload, hd, startTimeOf, hsd, secondsSince, Option.map]
    norm_num [h2]
  · simp only [testUpload, hu, startTimeOf, hsu, secondsSince, Option.map]
    norm_num [h3]

/-! ## Properties of the query separator -/

/-- The scan returns `"&"` exactly when it meets a `?` before any path separator. -/
theorem urlSepFrom_amp_iff (url : List Char) (n : Nat) :
    urlSepFrom url n = "&" ↔
      ∃ i, i < n ∧ url.getD i ' ' = '?'
        ∧ ∀ j, i < j → j < n → url.getD j ' ' ≠ '/' ∧ url.getD j ' ' ≠ backslash := by
  induction n with
  | zero =>
    simp only [urlSepFrom]
    constructor
    · intro h; exact absurd h (by decide)
    · rintro ⟨i, hi, _⟩; omega
  | succ n ih =>
    rw [urlSepFrom]
    by_cases hq : url.getD n ' ' = '?'
    · rw [if_pos hq]
      refine ⟨fun _ => ⟨n, Nat.lt_succ_self n, hq, fun j h₁ h₂ => by omega⟩, fun _ => rfl⟩
    · rw [if_neg hq]
      by_cases hs : url.getD n ' ' = '/' ∨ url.getD n ' ' = backslash
      · rw [if_pos hs]
        constructor
        · intro h; exact absurd h (by decide)
        · rintro ⟨i, hi, hiq, hall⟩
          have hin : i < n := by
            rcases Nat.lt_succ_iff_lt_or_eq.mp hi with h | h
            · exact h
            · exact absurd (h ▸ hiq) hq
          have := hall n hin (Nat.lt_succ_self n)
          rcases hs with hs | hs
          · exact absurd hs this.1
          · exact absurd hs this.2
      · rw [if_neg hs, ih]
        have hs' : url.getD n ' ' ≠ '/' ∧ url.getD n ' ' ≠ backslash :=
          ⟨fun h => hs (Or.inl h), fun h => hs (Or.inr h)⟩
        constructor
        · rintro ⟨i, hi, hiq, hall⟩
          refine ⟨i, Nat.lt_succ_of_lt hi, hiq, fun j h₁ h₂ => ?_⟩
          rcases Nat.lt_succ_iff_lt_or_eq.mp h₂ with h | h
          · exact hall j h₁ h
          · rw [h]; exact hs'
        · rintro ⟨i, hi, hiq, hall⟩
          have hin : i < n := by
            rcases Nat.lt_succ_iff_lt_or_eq.mp hi with h | h
            · exact h
            · exact absurd (h ▸ hiq) hq
          exact ⟨i, hin, hiq, fun j h₁ h₂ => hall j h₁ (Nat.lt_succ_of_lt h₂)⟩

/-- The scan returns one of the two separators. -/
theorem urlSepFrom_cases (url : List Char) (n : Nat) :
    urlSepFrom url n = "&" ∨ urlSepFrom url n = "?" := by
  induction n with
  | zero => right; rfl
  | succ n ih =>
    rw [urlSepFrom]
    split_ifs
    · left; rfl
    · right; rfl
    · exact ih

/-- C9, as stated, fails: the URL `http://h/p?next=/home` carries a query string, yet
`urlSep` stops at the `/` inside it and returns `"?"`, so appending the separator and a
parameter puts a second `?` into the URL. -/
theorem query_with_slash_gets_second_mark :
    urlSep "http://h/p?next=/home" = "?"
    ∧ ("http://h/p?next=/home" : String).data.count '?' = 1
    ∧ ("http://h/p?next=/home" ++ urlSep "http://h/p?next=/home" ++ "r=1").data.count '?' = 2 := by
  decide

/-- C9, amended: `urlSep` returns `"&"` exactly when a `?` occurs at a position after
which the URL has no path separator (`/` or `\`), and `"?"` otherwise; consequently, for a
URL with such a `?`, appending `urlSep(url)` and a parameter adds no `?` beyond those of
the URL and of the parameter. -/
theorem urlSep_spec (url : String) :
    (urlSep url = "&" ↔
      ∃ i, i < url.data.length ∧ url.data.getD i ' ' = '?'
        ∧ ∀ j, i < j → j < url.data.length →
            url.data.getD j ' ' ≠ '/' ∧ url.data.getD j ' ' ≠ backslash)
    ∧ (urlSep url ≠ "&" → urlSep url = "?")
    ∧ ((∃ i, i < url.data.length ∧ url.data.getD i ' ' = '?'
        ∧ ∀ j, i < j → j < url.data.length →
            url.data.getD j ' ' ≠ '/' ∧ url.data.getD j ' ' ≠ backslash) →
        ∀ param : String,
          (url ++ urlSep url ++ param).data.count '?'
            = url.data.count '?' + param.data.count '?') := by
  refine ⟨urlSepFrom_amp_iff url.data url.data.length, ?_, ?_⟩
  · intro h
    rcases urlSepFrom_cases url.data url.data.length with h' | h'
    · exact absurd h' h
    · exact h'
  · intro h param
    have hamp : urlSep url = "&" := (urlSepFrom_amp_iff url.data url.data.length).mpr h
    rw [hamp]
    simp only [String.data_append, List.count_append]
    have h₀ : List.count '?' ['&'] = 0 := by decide
    rw [h₀, Nat.add_zero]

/-- Instance of `urlSep_spec`: a URL whose query follows the last `/`. -/
theorem urlSep_spec_witness :
    urlSep "http://h/garbage.php?x=1" = "&"
    ∧ ("http://h/garbage.php?x=1" ++ urlSep "http://h/garbage.php?x=1" ++ "r=0.5").data.count '?'
        = ("http://h/garbage.php?x=1" : String).data.count '?'
          + ("r=0.5" : String).data.count '?' :=
  have hex : ∃ i, i < ("http://h/garbage.php?x=1" : String).data.length
      ∧ ("http://h/garbage.php?x=1" : String).data.getD i ' ' = '?'
      ∧ ∀ j, i < j → j < ("http://h/garbage.php?x=1" : String).data.length →
          ("http://h/garbage.php?x=1" : String).data.getD j ' ' ≠ '/'
          ∧ ("http://h/garbage.php?x=1" : String).data.getD j ' ' ≠ backslash :=
    ⟨20, by decide, by decide, fun j h₁ h₂ => by
      have h₃ : j < 24 := h₂
      interval_cases j <;> decide⟩
  ⟨(urlSep_spec "http://h/garbage.php?x=1").1.mpr hex,
   (urlSep_spec "http://h/garbage.php?x=1").2.2 hex "r=0.5"⟩

end AkamaiSpeedCli
